import Mathlib

/-!
Shallow embedding of `src/storage.py` from the inforec repository: the
identity-keyed `Collection` of time markers with its dangling-reference
bookkeeping, and the `OrderedMarkers` conflict-graph builder (union-find
merge of "same" groups, implicit by-value edges, explicit before/after
edges, simple-cycle extraction), plus the snapshot write/read path of
`InfoRecDB`.

Python dictionaries are modelled as insertion-ordered association lists
(`dictInsert` replaces in place, as CPython dict assignment keeps the key's
position; `dictErase` models `del`).  Python exceptions are modelled with
`Except PyError`; a function that can raise returns `Except`.  Marker
identities (`uuid.UUID`) are modelled as `Nat`; the builder's explicit-edge
nodes, which Python makes with `str(uuid)`, are modelled as the `String`
side of a sum type, since a `UUID` object and a `str` are never equal in
Python.
-/

abbrev UUID := Nat

/-- Modelled from the spec: `model.py` is not under `src/`; the spec's
`TimeRelativity` outcome of comparing two value-comparable markers
(BEFORE / AFTER / SAME / UNKNOWN). -/
inductive TimeRelativity
  | before
  | after
  | same
  | unknown
deriving DecidableEq, Repr

/-- Modelled from the spec: `model.py` is not under `src/`; an Explicit
TimeSpec carries three sets of foreign identities (`befores`, `sames`,
`afters`).  Python's `None` (the code guards with `befores or []`) and the
empty set are both modelled as `[]`. -/
structure RelTimeSpecExplicit where
  befores : List UUID
  sames : List UUID
  afters : List UUID
deriving DecidableEq, Repr

/-- Modelled from the spec: `model.py` is not under `src/`; the three
marker variants.  `absoluteDateTime` and `date` are the value-comparable
variants (their comparable value modelled as an `Int`); `event` carries an
Explicit TimeSpec. -/
inductive RelTimeMarker
  | absoluteDateTime (id : UUID) (value : Int)
  | date (id : UUID) (value : Int)
  | event (id : UUID) (timespec : RelTimeSpecExplicit)
deriving DecidableEq, Repr

def RelTimeMarker.id : RelTimeMarker → UUID
  | .absoluteDateTime i _ => i
  | .date i _ => i
  | .event i _ => i

/-- Modelled from the spec: the comparable value of a value-comparable
marker (`isinstance(marker, RelTimeSpecImplicit)` in the source selects
exactly these). -/
def implicitValue : RelTimeMarker → Option Int
  | .absoluteDateTime _ v => some v
  | .date _ v => some v
  | .event _ _ => none

def isImplicitMarker (mk : RelTimeMarker) : Bool :=
  (implicitValue mk).isSome

/-- Modelled from the spec: `marker.compare(m2)` orders two
value-comparable markers by value. -/
def markerCompare (a b : RelTimeMarker) : TimeRelativity :=
  match implicitValue a, implicitValue b with
  | some x, some y =>
      if x < y then .before else if y < x then .after else .same
  | _, _ => .unknown

/-- The Python exceptions that the embedded code can raise. -/
inductive PyError
  | illegalState
  | keyError
  | assertionError
  | recursionError
  | attributeError
  | schemaError
  | unfeasible
deriving DecidableEq, Repr

deriving instance DecidableEq for Except

/-! ### Association-list model of Python dict -/

def dictLookup {α : Type} : List (UUID × α) → UUID → Option α
  | [], _ => none
  | (k, v) :: rest, key => if k = key then some v else dictLookup rest key

def dictContains {α : Type} (m : List (UUID × α)) (k : UUID) : Bool :=
  (dictLookup m k).isSome

def dictInsert {α : Type} : List (UUID × α) → UUID → α → List (UUID × α)
  | [], k, v => [(k, v)]
  | (k', v') :: rest, k, v =>
      if k' = k then (k, v) :: rest else (k', v') :: dictInsert rest k v

def dictErase {α : Type} : List (UUID × α) → UUID → List (UUID × α)
  | [], _ => []
  | (k', v') :: rest, k =>
      if k' = k then rest else (k', v') :: dictErase rest k

/-- Python `set.add`, on the list model of a set: append if absent. -/
def setAdd (s : List UUID) (x : UUID) : List UUID :=
  if x ∈ s then s else s ++ [x]

/-- Python `set.discard`. -/
def setDiscard (s : List UUID) (x : UUID) : List UUID :=
  s.filter (fun y => y ≠ x)

/-! ### Collection -/

/-- `Collection`: `collection` is the `items` dict (identity → marker);
`danglingRefs` maps a referenced identity to the set of referrers. -/
structure Collection where
  collection : List (UUID × RelTimeMarker)
  danglingRefs : List (UUID × List UUID)
deriving DecidableEq, Repr

def emptyCollection : Collection := ⟨[], []⟩

/-- One step of `_do_dangling_ref`'s loop body: if the referenced id is
absent from `collection`, record `item_id` as a referrer of it. -/
def danglingAdd (d : List (UUID × List UUID)) (tid item_id : UUID) :
    List (UUID × List UUID) :=
  match dictLookup d tid with
  | none => d ++ [(tid, [item_id])]
  | some s => dictInsert d tid (setAdd s item_id)

def doDanglingLoop (item_id : UUID) : List UUID → Collection → Collection
  | [], c => c
  | tid :: rest, c =>
      if dictContains c.collection tid then doDanglingLoop item_id rest c
      else doDanglingLoop item_id rest
        { c with danglingRefs := danglingAdd c.danglingRefs tid item_id }

/-- `Collection._do_dangling_ref`: iterates
`itertools.chain(befores, sames, afters)`. -/
def do_dangling_ref (c : Collection) (ts : RelTimeSpecExplicit)
    (item_id : UUID) : Collection :=
  doDanglingLoop item_id (ts.befores ++ ts.sames ++ ts.afters) c

/-- First loop of `add_item`: identity-check and insert each item; raises
`IllegalStateError` at the first duplicate, leaving the items inserted so
far in place. -/
def addItemPass1 : List RelTimeMarker → Collection → Collection × Option PyError
  | [], c => (c, none)
  | mk :: rest, c =>
      if dictContains c.collection mk.id then (c, some PyError.illegalState)
      else addItemPass1 rest
        { c with collection := dictInsert c.collection mk.id mk }

/-- Second loop of `add_item`: for each added `Event`, clear its own
identity from `danglingRefs` and record its outgoing dangling refs. -/
def addItemPass2 : List RelTimeMarker → Collection → Collection
  | [], c => c
  | mk :: rest, c =>
      match mk with
      | RelTimeMarker.event iid ts =>
          addItemPass2 rest
            (do_dangling_ref
              { c with danglingRefs := dictErase c.danglingRefs iid } ts iid)
      | _ => addItemPass2 rest c

/-- `Collection.add_item(*item)`.  Returns the collection state after the
call together with the exception, if one was raised (the first loop's
mutations survive the exception, as in Python). -/
def add_item (c : Collection) (items : List RelTimeMarker) :
    Collection × Option PyError :=
  match addItemPass1 items c with
  | (c1, some e) => (c1, some e)
  | (c1, none) => (addItemPass2 items c1, none)

def sameVariant : RelTimeMarker → RelTimeMarker → Bool
  | RelTimeMarker.absoluteDateTime _ _, RelTimeMarker.absoluteDateTime _ _ => true
  | RelTimeMarker.date _ _, RelTimeMarker.date _ _ => true
  | RelTimeMarker.event _ _, RelTimeMarker.event _ _ => true
  | _, _ => false

/-- `Collection.update_item`: `KeyError` via `get_item` when absent,
`AssertionError` when the variant differs (the `assert isinstance`),
otherwise replace, discard `item_id` from every dangling set (keys are
kept, even when their set becomes empty), and re-derive outgoing refs when
the new marker is an Event. -/
def update_item (c : Collection) (item_id : UUID) (new_item : RelTimeMarker) :
    Except PyError Collection :=
  match dictLookup c.collection item_id with
  | none => Except.error PyError.keyError
  | some old_item =>
      if sameVariant new_item old_item then
        let c1 : Collection :=
          { c with collection := dictInsert c.collection old_item.id new_item }
        let c2 : Collection :=
          { c1 with danglingRefs :=
              c1.danglingRefs.map (fun kv => (kv.fst, setDiscard kv.snd item_id)) }
        match new_item with
        | RelTimeMarker.event _ ts => Except.ok (do_dangling_ref c2 ts item_id)
        | _ => Except.ok c2
      else Except.error PyError.assertionError

/-- `Collection.is_self_contained`: `not bool(self._dangling_refs)` — an
empty-set value still keeps its key, and the key alone makes this false. -/
def is_self_contained (c : Collection) : Bool :=
  c.danglingRefs.isEmpty

def get_item (c : Collection) (i : UUID) : Except PyError RelTimeMarker :=
  match dictLookup c.collection i with
  | none => Except.error PyError.keyError
  | some mk => Except.ok mk

/-- `Collection.list()`: the keys of `items`. -/
def listIds (c : Collection) : List UUID :=
  c.collection.map Prod.fst

def markersOf (c : Collection) : List RelTimeMarker :=
  c.collection.map Prod.snd

def idsOf (l : List RelTimeMarker) : List UUID :=
  l.map RelTimeMarker.id

/-- The identities an Event's Explicit TimeSpec references
(`befores ∪ sames ∪ afters`); `[]` for other variants. -/
def explicitRefs : RelTimeMarker → List UUID
  | .event _ ts => ts.befores ++ ts.sames ++ ts.afters
  | _ => []

/-! ### Conflict graph builder (`OrderedMarkers.__init__`) -/

/-- A graph node: `Sum.inl u` is the `UUID` object `u` used by implicit
(by-value) edges; `Sum.inr s` is the string `str(representative)` used by
explicit edges.  In Python these live in one `nx.DiGraph` node namespace,
but a `UUID` object never equals a `str`, which the sum type captures. -/
abbrev GNode := Sum UUID String

/-- `str(uuid)` on the `Nat` model of identities. -/
def uuidStr (u : UUID) : String := toString u

/-- The digraph, as its ordered edge list.  `nx.DiGraph.add_edge` is
idempotent. -/
abbrev Graph := List (GNode × GNode)

def edgeMemB (e : GNode × GNode) : Graph → Bool
  | [] => false
  | e' :: rest => if e' = e then true else edgeMemB e rest

def addEdge (g : Graph) (e : GNode × GNode) : Graph :=
  if edgeMemB e g then g else g ++ [e]

abbrev IdMap := List (UUID × UUID)

/-- `id_merging` initialization: every marker starts as its own parent. -/
def initMerging : List RelTimeMarker → IdMap → IdMap
  | [], m => m
  | mk :: rest, m => initMerging rest (dictInsert m mk.id mk.id)

/-- `current_root`: recursive parent-chasing.  The fuel models Python's
recursion limit; missing keys raise `KeyError`. -/
def currentRoot (fuel : Nat) (m : IdMap) (node : UUID) : Except PyError UUID :=
  match fuel with
  | 0 => Except.error PyError.recursionError
  | fuel + 1 =>
      match dictLookup m node with
      | none => Except.error PyError.keyError
      | some p => if p = node then Except.ok node else currentRoot fuel m p

/-- The inner search of the merge loop: the first member of `sames` whose
parent pointer is not itself; `KeyError` if a member is not a key of
`id_merging`. -/
def findMergedId (m : IdMap) : List UUID → Except PyError (Option UUID)
  | [] => Except.ok none
  | s :: rest =>
      match dictLookup m s with
      | none => Except.error PyError.keyError
      | some p => if p = s then findMergedId m rest else Except.ok (some p)

/-- The second inner loop of the merge step: `current_root(same)` is
computed (its result unused, but its exceptions propagate) and the parent
pointer of each member is set to `merged_id`. -/
def touchRoots (fuel : Nat) (merged : UUID) : List UUID → IdMap → Except PyError IdMap
  | [], m => Except.ok m
  | s :: rest, m =>
      match currentRoot fuel m s with
      | Except.error e => Except.error e
      | Except.ok _ => touchRoots fuel merged rest (dictInsert m s merged)

/-- The union-find construction loop over all markers: only Events with a
non-empty (non-`None`) `sames` participate. -/
def mergeLoop (fuel : Nat) : List RelTimeMarker → IdMap → Except PyError IdMap
  | [], m => Except.ok m
  | RelTimeMarker.event iid ts :: rest, m =>
      if ts.sames.isEmpty then mergeLoop fuel rest m
      else
        match findMergedId m ts.sames with
        | Except.error e => Except.error e
        | Except.ok none => mergeLoop fuel rest m
        | Except.ok (some merged) =>
            match touchRoots fuel merged ts.sames m with
            | Except.error e => Except.error e
            | Except.ok m2 => mergeLoop fuel rest (dictInsert m2 iid merged)
  | _ :: rest, m => mergeLoop fuel rest m

/-- `id_merged` computation: each present marker's id mapped to its root. -/
def idMergedLoop (fuel : Nat) (m : IdMap) :
    List RelTimeMarker → IdMap → Except PyError IdMap
  | [], acc => Except.ok acc
  | mk :: rest, acc =>
      match currentRoot fuel m mk.id with
      | Except.error e => Except.error e
      | Except.ok r => idMergedLoop fuel m rest (dictInsert acc mk.id r)

/-- The whole union-find phase of `OrderedMarkers.__init__`, producing the
`id_merged` representative map. -/
def idMergedOf (c : Collection) : Except PyError IdMap :=
  let coll := markersOf c
  let fuel := coll.length + 1
  match mergeLoop fuel coll (initMerging coll []) with
  | Except.error e => Except.error e
  | Except.ok m => idMergedLoop fuel m coll []

def implicitsOf (coll : List RelTimeMarker) : List RelTimeMarker :=
  coll.filter isImplicitMarker

/-- Inner loop of the implicit comparison pass for one marker.  Python's
`marker is not m2` object-identity test is modelled as id inequality:
within one collection, distinct dict values carry distinct identities. -/
def implicitInner (mk : RelTimeMarker) : List RelTimeMarker → Graph → Graph
  | [], g => g
  | m2 :: rest, g =>
      if mk.id = m2.id then implicitInner mk rest g
      else
        match markerCompare mk m2 with
        | TimeRelativity.before =>
            implicitInner mk rest (addEdge g (Sum.inl mk.id, Sum.inl m2.id))
        | TimeRelativity.after =>
            implicitInner mk rest (addEdge g (Sum.inl m2.id, Sum.inl mk.id))
        | _ => implicitInner mk rest g

/-- The implicit (by-value) edge pass: all ordered pairs of
value-comparable markers; edges are keyed by the raw marker ids. -/
def implicitEdges (implicits : List RelTimeMarker) : List RelTimeMarker → Graph → Graph
  | [], g => g
  | mk :: rest, g => implicitEdges implicits rest (implicitInner mk implicits g)

/-- `afters` loop of the explicit pass:
`g.add_edge(str(id_merged[after]), node_id_1)`. -/
def aftersLoop (merged : IdMap) (n1 : GNode) : List UUID → Graph → Except PyError Graph
  | [], g => Except.ok g
  | aft :: rest, g =>
      match dictLookup merged aft with
      | none => Except.error PyError.keyError
      | some r2 => aftersLoop merged n1 rest (addEdge g (Sum.inr (uuidStr r2), n1))

/-- `befores` loop of the explicit pass:
`g.add_edge(node_id_1, str(id_merged[before]))`. -/
def beforesLoop (merged : IdMap) (n1 : GNode) : List UUID → Graph → Except PyError Graph
  | [], g => Except.ok g
  | bef :: rest, g =>
      match dictLookup merged bef with
      | none => Except.error PyError.keyError
      | some r2 => beforesLoop merged n1 rest (addEdge g (n1, Sum.inr (uuidStr r2)))

/-- The explicit-edge pass over all markers; edges are keyed by the string
form of the group representative. -/
def explicitLoop (merged : IdMap) : List RelTimeMarker → Graph → Except PyError Graph
  | [], g => Except.ok g
  | RelTimeMarker.event iid ts :: rest, g =>
      match dictLookup merged iid with
      | none => Except.error PyError.keyError
      | some r1 =>
          match aftersLoop merged (Sum.inr (uuidStr r1)) ts.afters g with
          | Except.error e => Except.error e
          | Except.ok g2 =>
              match beforesLoop merged (Sum.inr (uuidStr r1)) ts.befores g2 with
              | Except.error e => Except.error e
              | Except.ok g3 => explicitLoop merged rest g3
  | _ :: rest, g => explicitLoop merged rest g

/-- `OrderedMarkers.__init__`: union-find merge, then implicit edges, then
explicit edges. -/
def buildGraph (c : Collection) : Except PyError Graph :=
  match idMergedOf c with
  | Except.error e => Except.error e
  | Except.ok merged =>
      let g1 := implicitEdges (implicitsOf (markersOf c)) (implicitsOf (markersOf c)) []
      explicitLoop merged (markersOf c) g1

/-! ### Simple-cycle enumeration (`nx.simple_cycles`)

`networkx` is an external library; its `simple_cycles` returns every
simple directed cycle of the graph exactly once, in an unspecified order
and rotation.  It is modelled here as the canonical enumeration: all
duplicate-free node lists that trace edges of the graph (wrapping around),
normalized so the minimal node comes first.  Every property claimed below
about the cycle list is invariant under order and rotation, so the
canonical choice does not bias any claim. -/

def nodesOf (g : Graph) : List GNode :=
  (g.map Prod.fst ++ g.map Prod.snd).dedup

def gnodeMemB (a : GNode) : List GNode → Bool
  | [] => false
  | b :: rest => if b = a then true else gnodeMemB a rest

def chainEdges (g : Graph) : List GNode → Bool
  | [] => true
  | [_] => true
  | a :: b :: rest => edgeMemB (a, b) g && chainEdges g (b :: rest)

def listNodupB : List GNode → Bool
  | [] => true
  | a :: rest => !gnodeMemB a rest && listNodupB rest

def isSimpleCycleB (g : Graph) : List GNode → Bool
  | [] => false
  | a :: rest =>
      listNodupB (a :: rest) && chainEdges g (a :: rest) &&
        edgeMemB ((a :: rest).getLastD a, a) g

def gnodeLeB : GNode → GNode → Bool
  | Sum.inl a, Sum.inl b => decide (a ≤ b)
  | Sum.inl _, Sum.inr _ => true
  | Sum.inr _, Sum.inl _ => false
  | Sum.inr a, Sum.inr b => decide (a.data.map Char.toNat ≤ b.data.map Char.toNat)

def isMinHeadB : List GNode → Bool
  | [] => true
  | a :: rest => rest.all (fun b => gnodeLeB a b)

/-- All sublists (subsets, order kept) of a node list. -/
def nodeSublists : List GNode → List (List GNode)
  | [] => [[]]
  | a :: rest => nodeSublists rest ++ (nodeSublists rest).map (fun s => a :: s)

/-- All ways to insert a node into a list. -/
def nodeInserts (a : GNode) : List GNode → List (List GNode)
  | [] => [[a]]
  | b :: rest => (a :: b :: rest) :: (nodeInserts a rest).map (fun s => b :: s)

/-- All permutations of a node list. -/
def nodePerms : List GNode → List (List GNode)
  | [] => [[]]
  | a :: rest => ((nodePerms rest).map (nodeInserts a)).flatten

def simpleCycles (g : Graph) : List (List GNode) :=
  ((nodeSublists (nodesOf g)).map nodePerms).flatten.filter
    (fun c => isSimpleCycleB g c && isMinHeadB c)

/-- `Collection.conflicts()`: build the graph, list its simple cycles. -/
def conflicts (c : Collection) : Except PyError (List (List GNode)) :=
  match buildGraph c with
  | Except.error e => Except.error e
  | Except.ok g => Except.ok (simpleCycles g)

/-- `Collection.has_no_conflict()`: `not bool(self.conflicts())`, catching
only `nx.NetworkXUnfeasible`; every other exception propagates. -/
def has_no_conflict (c : Collection) : Except PyError Bool :=
  match conflicts c with
  | Except.ok cs => Except.ok cs.isEmpty
  | Except.error PyError.unfeasible => Except.ok false
  | Except.error e => Except.error e

/-! ### Snapshot write/read (`InfoRecDB.write` / `InfoRecDB.read_db`)

The `sede` module is not under `src/`.  Modelled from the spec: the
snapshot is a sequence of (variant tag, payload) entries; each variant has
its own encode/decode pair, `decode(encode(m))` reconstructs `m` for the
matching variant, and an encoder applied outside its variant fails (the
Python function would access fields the marker does not have, an
`AttributeError`). -/

inductive MarkerTag
  | absolute_date_time
  | date
  | event
deriving DecidableEq, Repr

/-- Modelled from the spec: the tagged payload a marker serializes to. -/
inductive Payload
  | absPayload (id : UUID) (value : Int)
  | datePayload (id : UUID) (value : Int)
  | eventPayload (id : UUID) (ts : RelTimeSpecExplicit)
deriving DecidableEq, Repr

/-- Modelled from the spec: `sede.serialise_event`. -/
def serialise_event : RelTimeMarker → Option Payload
  | RelTimeMarker.event i ts => some (Payload.eventPayload i ts)
  | _ => none

/-- Modelled from the spec: `sede.serialize_date`. -/
def serialize_date : RelTimeMarker → Option Payload
  | RelTimeMarker.date i v => some (Payload.datePayload i v)
  | _ => none

/-- Modelled from the spec: `sede.deserialize_absolutedatetime`. -/
def deserialize_absolutedatetime : Payload → Option RelTimeMarker
  | Payload.absPayload i v => some (RelTimeMarker.absoluteDateTime i v)
  | _ => none

/-- Modelled from the spec: `sede.deserialize_date`. -/
def deserialize_date : Payload → Option RelTimeMarker
  | Payload.datePayload i v => some (RelTimeMarker.date i v)
  | _ => none

/-- Modelled from the spec: `sede.deserialise_event`. -/
def deserialise_event : Payload → Option RelTimeMarker
  | Payload.eventPayload i ts => some (RelTimeMarker.event i ts)
  | _ => none

/-- `M_T_SER`, exactly as the table in the source: note that
`AbsoluteDateTime` is paired with `sede.serialise_event`. -/
def M_T_SER : RelTimeMarker → (RelTimeMarker → Option Payload) × MarkerTag
  | RelTimeMarker.absoluteDateTime _ _ => (serialise_event, MarkerTag.absolute_date_time)
  | RelTimeMarker.date _ _ => (serialize_date, MarkerTag.date)
  | RelTimeMarker.event _ _ => (serialise_event, MarkerTag.event)

/-- `M_T_DES`: tag → deserializer.  `MarkerTag` is the closed set of
recognized tags, so `read_db`'s schema assertion holds by type. -/
def M_T_DES : MarkerTag → Payload → Option RelTimeMarker
  | MarkerTag.absolute_date_time => deserialize_absolutedatetime
  | MarkerTag.date => deserialize_date
  | MarkerTag.event => deserialise_event

/-- The entry-building loop of `InfoRecDB.write`. -/
def writeEntries : List RelTimeMarker → Except PyError (List (MarkerTag × Payload))
  | [] => Except.ok []
  | mk :: rest =>
      match (M_T_SER mk).fst mk with
      | none => Except.error PyError.attributeError
      | some p =>
          match writeEntries rest with
          | Except.error e => Except.error e
          | Except.ok entries => Except.ok (((M_T_SER mk).snd, p) :: entries)

def write_db (c : Collection) : Except PyError (List (MarkerTag × Payload)) :=
  writeEntries (markersOf c)

/-- The decode loop of `InfoRecDB.read_db`; a payload the tag's decoder
cannot read fails (modelled as the schema error the assert guards). -/
def readMarkers : List (MarkerTag × Payload) → Except PyError (List RelTimeMarker)
  | [] => Except.ok []
  | (t, p) :: rest =>
      match M_T_DES t p with
      | none => Except.error PyError.schemaError
      | some mk =>
          match readMarkers rest with
          | Except.error e => Except.error e
          | Except.ok ms => Except.ok (mk :: ms)

/-- `InfoRecDB.read_db`: decode every entry, then seed a fresh Collection
through the normal `add_item` path. -/
def read_db (entries : List (MarkerTag × Payload)) : Except PyError Collection :=
  match readMarkers entries with
  | Except.error e => Except.error e
  | Except.ok ms =>
      match add_item emptyCollection ms with
      | (c, none) => Except.ok c
      | (_, some e) => Except.error e

/-- `save` then `load`. -/
def roundTrip (c : Collection) : Except PyError Collection :=
  match write_db c with
  | Except.error e => Except.error e
  | Except.ok entries => read_db entries

/-! ### Concrete instances used by the claims -/

/-- Three events: A=1 with `sames={2}`, `befores={3}`; B=2 with
`sames={3}`; C=3 with `befores={1}` (the same-merge chain of the spec,
with the group asserted both before and after itself). -/
def sameChainColl : Collection :=
  (add_item emptyCollection
    [RelTimeMarker.event 1 ⟨[3], [2], []⟩,
     RelTimeMarker.event 2 ⟨[], [3], []⟩,
     RelTimeMarker.event 3 ⟨[1], [], []⟩]).fst

/-- A single event whose `sames` names the absent identity 12. -/
def danglingSameColl : Collection :=
  (add_item emptyCollection [RelTimeMarker.event 11 ⟨[], [12], []⟩]).fst

/-- A single event whose `befores` names the absent identity 32. -/
def danglingBeforeColl : Collection :=
  (add_item emptyCollection [RelTimeMarker.event 31 ⟨[32], [], []⟩]).fst

/-- A collection spanning all three marker variants. -/
def threeVariantColl : Collection :=
  (add_item emptyCollection
    [RelTimeMarker.absoluteDateTime 5 0,
     RelTimeMarker.date 6 1,
     RelTimeMarker.event 7 ⟨[], [], []⟩]).fst

/-- Two events 1 and 2, each asserted before the other. -/
def mutualBeforesColl : Collection :=
  (add_item emptyCollection
    [RelTimeMarker.event 1 ⟨[2], [], []⟩,
     RelTimeMarker.event 2 ⟨[1], [], []⟩]).fst

/-! ### C1 -/

/-- C1 (code bug): with A=1 `sames={2}`, B=2 `sames={3}` (and A
before C=3, C before A), the union-find step merges nothing — `id_merged`
maps every identity to itself, so A, B, C stay three singleton groups —
and the reported conflict cycle contains the representatives of A and C
but not the representative of B.  The claim says the three land in one
group and the cycle contains representatives of all three. -/
theorem sameMerge_never_merges :
    idMergedOf sameChainColl = Except.ok [(1, 1), (2, 2), (3, 3)] ∧
    conflicts sameChainColl =
      Except.ok [[Sum.inr (uuidStr 1), Sum.inr (uuidStr 3)]] ∧
    List.all [[Sum.inr (uuidStr 1), Sum.inr (uuidStr 3)]]
      (fun cyc => !gnodeMemB (Sum.inr (uuidStr 2)) cyc) = true :=
  ⟨rfl, by decide, rfl⟩

/-! ### C2 -/

/-- C2 (counterexample): `hasNoConflict()` propagates a `KeyError` when an
Event's `sames` names an identity absent from `items`; it does not return
a boolean there. -/
theorem hasNoConflict_raises_on_dangling_same :
    has_no_conflict danglingSameColl = Except.error PyError.keyError :=
  rfl

/-! ### C3 -/

/-- C3 (code bug): after `addItem(Event 1 with befores={2})` followed by
`updateItem(1, Event 1 with no refs)`, the identity 2 is still a key of
`danglingRefs` (with an empty referrer set) although no present Event
references 2 — `updateItem` discards the updated id from referrer sets but
never drops keys whose set empties, violating the claimed iff-invariant
(and making `isSelfContained()` false on a collection with no dangling
reference at all). -/
theorem danglingRefs_invariant_violated :
    update_item
        (add_item emptyCollection [RelTimeMarker.event 1 ⟨[2], [], []⟩]).fst
        1 (RelTimeMarker.event 1 ⟨[], [], []⟩) =
      Except.ok ⟨[(1, RelTimeMarker.event 1 ⟨[], [], []⟩)], [(2, [])]⟩ ∧
    (markersOf ⟨[(1, RelTimeMarker.event 1 ⟨[], [], []⟩)], [(2, [])]⟩).all
      (fun mk => !(explicitRefs mk).contains 2) = true ∧
    dictContains (⟨[(1, RelTimeMarker.event 1 ⟨[], [], []⟩)],
        [(2, [])]⟩ : Collection).danglingRefs 2 = true ∧
    is_self_contained ⟨[(1, RelTimeMarker.event 1 ⟨[], [], []⟩)], [(2, [])]⟩ = false :=
  ⟨rfl, rfl, rfl, rfl⟩

/-! ### C4 -/

/-- C4 (code bug): `save` followed by `load` cannot round-trip a
collection containing an `AbsoluteDateTime`: the `M_T_SER` table pairs
`AbsoluteDateTime` with `sede.serialise_event` (the Event encoder), whose
application to an AbsoluteDateTime fails, while the matching tag decodes
with `deserialize_absolutedatetime` — so the round trip raises instead of
reproducing `list()` and `getItem`. -/
theorem roundTrip_fails_on_absoluteDateTime :
    roundTrip threeVariantColl = Except.error PyError.attributeError :=
  rfl

/-! ### C5 -/

/-- C5 (counterexample): an Event whose `befores` names the absent
identity 32 makes `OrderedMarkers.__init__` raise a `KeyError`
(`id_merged[before]` misses), so `conflicts()` fails rather than adding an
isolated placeholder node for 32. -/
theorem builder_raises_on_dangling_before :
    conflicts danglingBeforeColl = Except.error PyError.keyError :=
  rfl

/-! ### C8 -/

/-- C8: for the two present Events 1 and 2 with `befores={2}` and
`befores={1}` respectively (and no sames), `conflicts()` returns exactly
one simple cycle, and that cycle contains the representatives of both
events (their own identities, stringified). -/
theorem minimal_cycle_two_events :
    ∃ cyc, conflicts mutualBeforesColl = Except.ok [cyc] ∧
      gnodeMemB (Sum.inr (uuidStr 1)) cyc = true ∧
      gnodeMemB (Sum.inr (uuidStr 2)) cyc = true :=
  ⟨[Sum.inr (uuidStr 1), Sum.inr (uuidStr 2)], by decide, rfl, rfl⟩

/-! ### Dictionary lemmas -/

theorem dictLookup_insert {α : Type} (m : List (UUID × α)) (k k' : UUID) (v : α) :
    dictLookup (dictInsert m k v) k' = if k = k' then some v else dictLookup m k' := by
  induction m with
  | nil => simp [dictInsert, dictLookup]
  | cons kv rest ih =>
      obtain ⟨k0, v0⟩ := kv
      by_cases h0 : k0 = k
      · subst h0
        by_cases h1 : k0 = k'
        · subst h1; simp [dictInsert, dictLookup]
        · simp [dictInsert, dictLookup, h1]
      · by_cases h1 : k0 = k'
        · subst h1
          simp [dictInsert, dictLookup, h0, Ne.symm h0]
        · simp [dictInsert, dictLookup, h0, h1, ih]

theorem dictInsert_of_absent {α : Type} (m : List (UUID × α)) (k : UUID) (v : α)
    (h : dictLookup m k = none) : dictInsert m k v = m ++ [(k, v)] := by
  induction m with
  | nil => simp [dictInsert]
  | cons kv rest ih =>
      obtain ⟨k0, v0⟩ := kv
      by_cases h0 : k0 = k
      · subst h0; simp [dictLookup] at h
      · simp [dictLookup, h0] at h
        simp [dictInsert, h0, ih h]

theorem dictLookup_append {α : Type} (m n : List (UUID × α)) (k : UUID) :
    dictLookup (m ++ n) k =
      match dictLookup m k with
      | some v => some v
      | none => dictLookup n k := by
  induction m with
  | nil => simp [dictLookup]
  | cons kv rest ih =>
      obtain ⟨k0, v0⟩ := kv
      by_cases h0 : k0 = k
      · subst h0; simp [dictLookup]
      · simp [dictLookup, h0, ih]

theorem dictContains_append {α : Type} (m n : List (UUID × α)) (k : UUID) :
    dictContains (m ++ n) k = (dictContains m k || dictContains n k) := by
  simp only [dictContains, dictLookup_append]
  cases dictLookup m k <;> simp

/-! ### Structural lemmas about `add_item` -/

theorem doDanglingLoop_collection (item_id : UUID) (l : List UUID) :
    ∀ c : Collection, (doDanglingLoop item_id l c).collection = c.collection := by
  induction l with
  | nil => intro c; rfl
  | cons tid rest ih =>
      intro c
      simp only [doDanglingLoop]
      by_cases h : dictContains c.collection tid
      · simp [h, ih]
      · simp [h, ih]

theorem addItemPass2_collection (l : List RelTimeMarker) :
    ∀ c : Collection, (addItemPass2 l c).collection = c.collection := by
  induction l with
  | nil => intro c; rfl
  | cons mk rest ih =>
      intro c
      cases mk with
      | event iid ts =>
          simp only [addItemPass2, do_dangling_ref]
          rw [ih, doDanglingLoop_collection]
      | absoluteDateTime i v => simpa [addItemPass2] using ih _
      | date i v => simpa [addItemPass2] using ih _

theorem addItemPass1_ok (l : List RelTimeMarker) :
    ∀ c : Collection,
      (∀ mk ∈ l, dictContains c.collection mk.id = false) →
      (l.map RelTimeMarker.id).Nodup →
      addItemPass1 l c =
        (⟨c.collection ++ l.map (fun mk => (mk.id, mk)), c.danglingRefs⟩, none) := by
  induction l with
  | nil => intro c _ _; simp [addItemPass1]
  | cons mk rest ih =>
      intro c hfresh hnodup
      have hmk : dictContains c.collection mk.id = false :=
        hfresh mk (List.mem_cons_self mk rest)
      have habs : dictLookup c.collection mk.id = none := by
        simpa [dictContains, Option.isSome_iff_exists] using hmk
      simp only [addItemPass1, hmk, Bool.false_eq_true, if_false]
      rw [dictInsert_of_absent _ _ _ habs]
      simp only [List.map_cons, List.nodup_cons] at hnodup
      have hrest :
          ∀ mk' ∈ rest,
            dictContains (c.collection ++ [(mk.id, mk)]) mk'.id = false := by
        intro mk' hm
        rw [dictContains_append]
        have h1 : dictContains c.collection mk'.id = false :=
          hfresh mk' (List.mem_cons_of_mem _ hm)
        have h2 : mk'.id ≠ mk.id := by
          intro he
          exact hnodup.1 (by simpa [he] using List.mem_map_of_mem RelTimeMarker.id hm)
        simp only [dictContains, dictLookup] at h1 ⊢
        simp only [Bool.or_eq_false_iff]
        refine ⟨h1, ?_⟩
        simp [Ne.symm h2]
      rw [ih _ hrest hnodup.2]
      simp

theorem addItemPass1_err (l : List RelTimeMarker) :
    ∀ c c' : Collection, ∀ err : PyError,
      addItemPass1 l c = (c', some err) →
      err = PyError.illegalState ∧ c'.danglingRefs = c.danglingRefs ∧
        ∃ pre mk post, l = pre ++ mk :: post ∧
          c'.collection = c.collection ++ pre.map (fun m => (m.id, m)) ∧
          dictContains c'.collection mk.id = true := by
  induction l with
  | nil => intro c c' err h; simp [addItemPass1] at h
  | cons mk rest ih =>
      intro c c' err h
      by_cases hdup : dictContains c.collection mk.id
      · simp only [addItemPass1, hdup, if_true, Prod.mk.injEq, Option.some.injEq] at h
        obtain ⟨hc, he⟩ := h
        subst hc
        exact ⟨he.symm, rfl, [], mk, rest, rfl, by simp, hdup⟩
      · have habs : dictLookup c.collection mk.id = none := by
          simpa [dictContains, Option.isSome_iff_exists] using
            (Bool.not_eq_true _).mp hdup
        simp only [addItemPass1, hdup, Bool.false_eq_true, if_false] at h
        rw [dictInsert_of_absent _ _ _ habs] at h
        obtain ⟨he, hd, pre, mk', post, hsplit, hcoll, hcontains⟩ := ih _ _ _ h
        refine ⟨he, hd, mk :: pre, mk', post, by simp [hsplit], ?_, hcontains⟩
        simp [hcoll]

/-! ### C7 -/

/-- C7: for every batch of markers with pairwise-distinct identities all
absent from the collection, `addItem` succeeds and `list()` grows by
exactly the batch length; a single `addItem` of a marker whose identity is
present fails with the duplicate-identity error and leaves the collection
(stored marker, `list()`, dangling index) exactly unchanged. -/
theorem addItem_uniqueness :
    (∀ (c : Collection) (l : List RelTimeMarker),
      (l.map RelTimeMarker.id).Nodup →
      (∀ mk ∈ l, dictContains c.collection mk.id = false) →
      (add_item c l).snd = none ∧
        (listIds (add_item c l).fst).length = (listIds c).length + l.length) ∧
    (∀ (c : Collection) (mk : RelTimeMarker),
      dictContains c.collection mk.id = true →
      add_item c [mk] = (c, some PyError.illegalState)) := by
  constructor
  · intro c l hnodup hfresh
    have h1 := addItemPass1_ok l c hfresh hnodup
    constructor
    · simp [add_item, h1]
    · simp [add_item, h1, listIds, addItemPass2_collection]
  · intro c mk h
    simp [add_item, addItemPass1, h]

/-- C7 witness: a two-marker fresh batch succeeds and grows `list()` by
two; re-adding identity 53 fails with the duplicate error, unchanged. -/
theorem addItem_uniqueness_witness :
    ((add_item emptyCollection
        [RelTimeMarker.date 51 0, RelTimeMarker.date 52 1]).snd = none ∧
      (listIds (add_item emptyCollection
        [RelTimeMarker.date 51 0, RelTimeMarker.date 52 1]).fst).length =
        (listIds emptyCollection).length +
          [RelTimeMarker.date 51 0, RelTimeMarker.date 52 1].length) ∧
    add_item (⟨[(53, RelTimeMarker.date 53 0)], []⟩ : Collection)
        [RelTimeMarker.date 53 5] =
      (⟨[(53, RelTimeMarker.date 53 0)], []⟩, some PyError.illegalState) :=
  ⟨addItem_uniqueness.1 emptyCollection
      [RelTimeMarker.date 51 0, RelTimeMarker.date 52 1] (by decide) (by decide),
   addItem_uniqueness.2 (⟨[(53, RelTimeMarker.date 53 0)], []⟩ : Collection)
      (RelTimeMarker.date 53 5) (by decide)⟩

/-! ### C10 -/

/-- C10: when a batched `addItem` raises on a duplicate identity, the
exception is the duplicate-identity error, `danglingRefs` is exactly the
pre-call index (the second, bookkeeping pass never ran), and the items
before the failing one are already inserted into `items`. -/
theorem partial_batch_keeps_danglingRefs (c : Collection)
    (l : List RelTimeMarker) (c' : Collection) (err : PyError)
    (h : add_item c l = (c', some err)) :
    err = PyError.illegalState ∧ c'.danglingRefs = c.danglingRefs ∧
      ∃ pre mk post, l = pre ++ mk :: post ∧
        c'.collection = c.collection ++ pre.map (fun m => (m.id, m)) ∧
        dictContains c'.collection mk.id = true := by
  have hp1 : addItemPass1 l c = (c', some err) := by
    unfold add_item at h
    rcases hp : addItemPass1 l c with ⟨c1, o⟩
    cases o with
    | none => rw [hp] at h; simp at h
    | some e =>
        rw [hp] at h
        simp only [Prod.mk.injEq, Option.some.injEq] at h
        rw [h.1, h.2]
  exact addItemPass1_err l c c' err hp1

/-- C10 witness: the batch `[Date 61, Date 61']` fails on its own
duplicate; the first copy is inserted, `danglingRefs` untouched. -/
theorem partial_batch_keeps_danglingRefs_witness :
    PyError.illegalState = PyError.illegalState ∧
    (⟨[(61, RelTimeMarker.date 61 0)], []⟩ : Collection).danglingRefs =
      emptyCollection.danglingRefs ∧
    ∃ pre mk post,
      [RelTimeMarker.date 61 0, RelTimeMarker.date 61 1] = pre ++ mk :: post ∧
      (⟨[(61, RelTimeMarker.date 61 0)], []⟩ : Collection).collection =
        emptyCollection.collection ++ pre.map (fun m => (m.id, m)) ∧
      dictContains (⟨[(61, RelTimeMarker.date 61 0)], []⟩ : Collection).collection
        mk.id = true :=
  partial_batch_keeps_danglingRefs emptyCollection
    [RelTimeMarker.date 61 0, RelTimeMarker.date 61 1]
    (⟨[(61, RelTimeMarker.date 61 0)], []⟩ : Collection)
    PyError.illegalState (by decide)

/-! ### C6 -/

/-- C6 (counterexample): after `addItem(Event 41 with befores={42})`,
adding a Date with identity 42 — "any marker (of any variant)" per the
claim — does not remove the dangling entry for 42 and does not make the
collection self-contained: `add_item`'s second pass clears a dangling key
only when the added marker is an Event. -/
theorem date_add_keeps_dangling :
    (add_item
        (add_item emptyCollection [RelTimeMarker.event 41 ⟨[42], [], []⟩]).fst
        [RelTimeMarker.date 42 0]).fst.danglingRefs = [(42, [41])] ∧
    is_self_contained
      (add_item
        (add_item emptyCollection [RelTimeMarker.event 41 ⟨[42], [], []⟩]).fst
        [RelTimeMarker.date 42 0]).fst = false :=
  ⟨rfl, rfl⟩

theorem doDanglingLoop_of_present (item_id : UUID) (l : List UUID) :
    ∀ c : Collection, (∀ tid ∈ l, dictContains c.collection tid = true) →
      doDanglingLoop item_id l c = c := by
  induction l with
  | nil => intro c _; rfl
  | cons tid rest ih =>
      intro c h
      have h1 := h tid (List.mem_cons_self _ _)
      simp only [doDanglingLoop, h1, if_true]
      exact ih c (fun t ht => h t (List.mem_cons_of_mem _ ht))

/-- C6 (amended): on an otherwise self-contained collection, adding Event
`e` with `befores={x}` (x absent) makes `isSelfContained()` false and puts
`x` into `danglingRefs`; subsequently adding an **Event** with identity
`x` (whose own explicit references are present) removes that entry, and
`isSelfContained()` becomes true again. -/
theorem dangling_lifecycle_event (c : Collection) (e x : UUID)
    (tsx : RelTimeSpecExplicit)
    (hdr : c.danglingRefs = [])
    (he : dictContains c.collection e = false)
    (hx : dictContains c.collection x = false)
    (hne : e ≠ x)
    (href : ∀ r ∈ tsx.befores ++ tsx.sames ++ tsx.afters,
      dictContains c.collection r = true ∨ r = e ∨ r = x) :
    is_self_contained
        (add_item c [RelTimeMarker.event e ⟨[x], [], []⟩]).fst = false ∧
    dictContains
        (add_item c [RelTimeMarker.event e ⟨[x], [], []⟩]).fst.danglingRefs
        x = true ∧
    dictContains
        (add_item (add_item c [RelTimeMarker.event e ⟨[x], [], []⟩]).fst
          [RelTimeMarker.event x tsx]).fst.danglingRefs x = false ∧
    is_self_contained
        (add_item (add_item c [RelTimeMarker.event e ⟨[x], [], []⟩]).fst
          [RelTimeMarker.event x tsx]).fst = true := by
  have hx' : dictLookup c.collection x = none := by
    simpa [dictContains, Option.isSome_iff_exists] using hx
  have hcoll1x :
      dictContains (c.collection ++ [(e, RelTimeMarker.event e ⟨[x], [], []⟩)]) x
        = false := by
    rw [dictContains_append]
    simp [hx', dictContains, dictLookup, hne]
  have hfresh1 :
      ∀ mk ∈ [RelTimeMarker.event e ⟨[x], [], []⟩],
        dictContains c.collection mk.id = false := by
    intro mk hm
    simp only [List.mem_singleton] at hm
    subst hm
    simpa [RelTimeMarker.id] using he
  have hp1 := addItemPass1_ok [RelTimeMarker.event e ⟨[x], [], []⟩] c hfresh1 (by simp)
  have hc1 : (add_item c [RelTimeMarker.event e ⟨[x], [], []⟩]).fst =
      ⟨c.collection ++ [(e, RelTimeMarker.event e ⟨[x], [], []⟩)], [(x, [e])]⟩ := by
    simp only [add_item, hp1]
    simp only [addItemPass2, do_dangling_ref, hdr]
    simp [doDanglingLoop, dictErase, RelTimeMarker.id, hcoll1x, danglingAdd,
      dictLookup]
  rw [hc1]
  refine ⟨rfl, by simp [dictContains, dictLookup], ?_⟩
  have hfresh2 :
      ∀ mk ∈ [RelTimeMarker.event x tsx],
        dictContains
          (c.collection ++ [(e, RelTimeMarker.event e ⟨[x], [], []⟩)]) mk.id
          = false := by
    intro mk hm
    simp only [List.mem_singleton] at hm
    subst hm
    simpa [RelTimeMarker.id] using hcoll1x
  have hp2 := addItemPass1_ok [RelTimeMarker.event x tsx]
    (⟨c.collection ++ [(e, RelTimeMarker.event e ⟨[x], [], []⟩)], [(x, [e])]⟩ : Collection)
    hfresh2 (by simp)
  have hpresent :
      ∀ r ∈ tsx.befores ++ tsx.sames ++ tsx.afters,
        dictContains
          ((c.collection ++ [(e, RelTimeMarker.event e ⟨[x], [], []⟩)]) ++
            [(x, RelTimeMarker.event x tsx)]) r = true := by
    intro r hr
    rcases href r hr with h | h | h
    · rw [dictContains_append, dictContains_append, h]
      rfl
    · subst h
      rw [dictContains_append, dictContains_append]
      simp [dictContains, dictLookup]
    · subst h
      rw [dictContains_append]
      simp [dictContains, dictLookup]
  have hc2 : (add_item
      (⟨c.collection ++ [(e, RelTimeMarker.event e ⟨[x], [], []⟩)], [(x, [e])]⟩ : Collection)
      [RelTimeMarker.event x tsx]).fst =
      ⟨(c.collection ++ [(e, RelTimeMarker.event e ⟨[x], [], []⟩)]) ++
        [(x, RelTimeMarker.event x tsx)], []⟩ := by
    simp only [add_item, hp2]
    simp only [addItemPass2, do_dangling_ref]
    rw [show dictErase [(x, [e])] x = [] by simp [dictErase]]
    exact doDanglingLoop_of_present x _ _ hpresent
  rw [hc2]
  exact ⟨rfl, rfl⟩

/-- C6 witness: the lifecycle at `e = 43`, `x = 44`, the resolving Event
having no references of its own. -/
theorem dangling_lifecycle_event_witness :
    is_self_contained
        (add_item emptyCollection [RelTimeMarker.event 43 ⟨[44], [], []⟩]).fst = false ∧
    dictContains
        (add_item emptyCollection
          [RelTimeMarker.event 43 ⟨[44], [], []⟩]).fst.danglingRefs 44 = true ∧
    dictContains
        (add_item
          (add_item emptyCollection [RelTimeMarker.event 43 ⟨[44], [], []⟩]).fst
          [RelTimeMarker.event 44 ⟨[], [], []⟩]).fst.danglingRefs 44 = false ∧
    is_self_contained
        (add_item
          (add_item emptyCollection [RelTimeMarker.event 43 ⟨[44], [], []⟩]).fst
          [RelTimeMarker.event 44 ⟨[], [], []⟩]).fst = true :=
  dangling_lifecycle_event emptyCollection 43 44 ⟨[], [], []⟩ rfl (by decide)
    (by decide) (by decide) (by simp)

/-! ### Union-find lemmas: on a parent map that is the identity on the
present identities, the merge loop does nothing and every root is the
identity itself. -/

theorem dictLookup_initMerging (coll : List RelTimeMarker) :
    ∀ (m : IdMap) (k : UUID),
      dictLookup (initMerging coll m) k =
        if k ∈ idsOf coll then some k else dictLookup m k := by
  induction coll with
  | nil => intro m k; simp [initMerging, idsOf]
  | cons mk rest ih =>
      intro m k
      simp only [initMerging]
      rw [ih]
      by_cases hk : k ∈ idsOf rest
      · have hk' : ∃ a ∈ rest, a.id = k := by
          simpa [idsOf, List.mem_map] using hk
        simp [idsOf, List.mem_map, hk']
      · by_cases he : mk.id = k
        · subst he
          simp [hk, idsOf, dictLookup_insert]
        · simp only [idsOf, List.map_cons, List.mem_cons]
          rw [dictLookup_insert]
          simp only [idsOf] at hk
          simp [hk, he, Ne.symm he]

theorem findMergedId_of_identity (m : IdMap) (l : List UUID)
    (h : ∀ s ∈ l, dictLookup m s = some s) :
    findMergedId m l = Except.ok none := by
  induction l with
  | nil => rfl
  | cons s rest ih =>
      have hs := h s (List.mem_cons_self _ _)
      simp only [findMergedId, hs, if_pos rfl]
      exact ih (fun t ht => h t (List.mem_cons_of_mem _ ht))

theorem mergeLoop_identity (fuel : Nat) (l : List RelTimeMarker) :
    ∀ m : IdMap,
      (∀ iid ts, RelTimeMarker.event iid ts ∈ l →
        ∀ s ∈ ts.sames, dictLookup m s = some s) →
      mergeLoop fuel l m = Except.ok m := by
  induction l with
  | nil => intro m _; rfl
  | cons mk rest ih =>
      intro m h
      have hrest :
          ∀ iid ts, RelTimeMarker.event iid ts ∈ rest →
            ∀ s ∈ ts.sames, dictLookup m s = some s :=
        fun i t hmem s hsm => h i t (List.mem_cons_of_mem _ hmem) s hsm
      cases mk with
      | event iid ts =>
          cases hs : ts.sames.isEmpty with
          | true => simp only [mergeLoop, hs, if_true]; exact ih m hrest
          | false =>
              have hfind := findMergedId_of_identity m ts.sames
                (h iid ts (List.mem_cons_self _ _))
              simp only [mergeLoop, hs, Bool.false_eq_true, if_false, hfind]
              exact ih m hrest
      | absoluteDateTime i v => simp only [mergeLoop]; exact ih m hrest
      | date i v => simp only [mergeLoop]; exact ih m hrest

theorem currentRoot_self (fuel : Nat) (m : IdMap) (k : UUID)
    (h : dictLookup m k = some k) :
    currentRoot (fuel + 1) m k = Except.ok k := by
  simp [currentRoot, h]

theorem idMergedLoop_identity (fuel : Nat) (m : IdMap) (l : List RelTimeMarker)
    (hm : ∀ mk ∈ l, dictLookup m mk.id = some mk.id) :
    ∀ acc : IdMap, ∃ out, idMergedLoop (fuel + 1) m l acc = Except.ok out ∧
      ∀ k, dictLookup out k = if k ∈ idsOf l then some k else dictLookup acc k := by
  induction l with
  | nil =>
      intro acc
      exact ⟨acc, rfl, fun k => by simp [idsOf]⟩
  | cons mk rest ih =>
      intro acc
      have h1 := currentRoot_self fuel m mk.id (hm mk (List.mem_cons_self _ _))
      obtain ⟨out, hout, hlook⟩ :=
        ih (fun t ht => hm t (List.mem_cons_of_mem _ ht)) (dictInsert acc mk.id mk.id)
      refine ⟨out, ?_, ?_⟩
      · simp only [idMergedLoop, h1, hout]
      · intro k
        rw [hlook k, dictLookup_insert]
        by_cases hk : k ∈ idsOf rest
        · have hk' : ∃ a ∈ rest, a.id = k := by
            simpa [idsOf, List.mem_map] using hk
          simp [idsOf, List.mem_map, hk']
        · by_cases he : mk.id = k
          · subst he
            simp [hk, idsOf]
          · simp only [idsOf, List.map_cons, List.mem_cons]
            simp only [idsOf] at hk
            simp [hk, he, Ne.symm he]

theorem idMergedOf_ok_of_refs_present (c : Collection)
    (h : ∀ mk ∈ markersOf c, ∀ r ∈ explicitRefs mk, r ∈ idsOf (markersOf c)) :
    ∃ merged, idMergedOf c = Except.ok merged ∧
      ∀ k, dictLookup merged k =
        if k ∈ idsOf (markersOf c) then some k else none := by
  have hinit : ∀ k, dictLookup (initMerging (markersOf c) []) k =
      if k ∈ idsOf (markersOf c) then some k else none := by
    intro k
    rw [dictLookup_initMerging]
    simp [dictLookup]
  have hsames :
      ∀ iid ts, RelTimeMarker.event iid ts ∈ markersOf c →
        ∀ s ∈ ts.sames, dictLookup (initMerging (markersOf c) []) s = some s := by
    intro iid ts hmem s hs
    have : s ∈ idsOf (markersOf c) := by
      refine h _ hmem s ?_
      simp only [explicitRefs]
      exact List.mem_append.mpr (Or.inl (List.mem_append.mpr (Or.inr hs)))
    rw [hinit, if_pos this]
  have hids : ∀ mk ∈ markersOf c,
      dictLookup (initMerging (markersOf c) []) mk.id = some mk.id := by
    intro mk hmk
    have hmem : mk.id ∈ idsOf (markersOf c) :=
      List.mem_map_of_mem RelTimeMarker.id hmk
    rw [hinit, if_pos hmem]
  obtain ⟨out, hout, hlook⟩ :=
    idMergedLoop_identity (markersOf c).length (initMerging (markersOf c) [])
      (markersOf c) hids []
  refine ⟨out, ?_, ?_⟩
  · simp only [idMergedOf]
    rw [mergeLoop_identity _ _ _ hsames]
    exact hout
  · intro k
    rw [hlook k]
    simp [dictLookup]

/-! ### Explicit-pass lemmas -/

theorem aftersLoop_ok (merged : IdMap) (n1 : GNode) (l : List UUID)
    (h : ∀ a ∈ l, (dictLookup merged a).isSome) :
    ∀ g, ∃ g', aftersLoop merged n1 l g = Except.ok g' := by
  induction l with
  | nil => intro g; exact ⟨g, rfl⟩
  | cons a rest ih =>
      intro g
      obtain ⟨r2, hr⟩ := Option.isSome_iff_exists.mp (h a (List.mem_cons_self _ _))
      obtain ⟨g', hg⟩ := ih (fun t ht => h t (List.mem_cons_of_mem _ ht)) (addEdge g (Sum.inr (uuidStr r2), n1))
      refine ⟨g', ?_⟩
      simp only [aftersLoop, hr]
      exact hg

theorem beforesLoop_ok (merged : IdMap) (n1 : GNode) (l : List UUID)
    (h : ∀ a ∈ l, (dictLookup merged a).isSome) :
    ∀ g, ∃ g', beforesLoop merged n1 l g = Except.ok g' := by
  induction l with
  | nil => intro g; exact ⟨g, rfl⟩
  | cons a rest ih =>
      intro g
      obtain ⟨r2, hr⟩ := Option.isSome_iff_exists.mp (h a (List.mem_cons_self _ _))
      obtain ⟨g', hg⟩ := ih (fun t ht => h t (List.mem_cons_of_mem _ ht)) (addEdge g (n1, Sum.inr (uuidStr r2)))
      refine ⟨g', ?_⟩
      simp only [beforesLoop, hr]
      exact hg

theorem explicitLoop_ok (merged : IdMap) (l : List RelTimeMarker)
    (h : ∀ mk ∈ l, (dictLookup merged mk.id).isSome ∧
      ∀ r ∈ explicitRefs mk, (dictLookup merged r).isSome) :
    ∀ g, ∃ g', explicitLoop merged l g = Except.ok g' := by
  induction l with
  | nil => intro g; exact ⟨g, rfl⟩
  | cons mk rest ih =>
      intro g
      have hrest := fun t ht => h t (List.mem_cons_of_mem _ ht)
      cases mk with
      | event iid ts =>
          have hself := (h _ (List.mem_cons_self _ _)).1
          have hrefs := (h _ (List.mem_cons_self _ _)).2
          obtain ⟨r1, hr1⟩ := Option.isSome_iff_exists.mp hself
          have hafters : ∀ a ∈ ts.afters, (dictLookup merged a).isSome := by
            intro a ha
            refine hrefs a ?_
            simp only [explicitRefs]
            exact List.mem_append.mpr (Or.inr ha)
          have hbefores : ∀ a ∈ ts.befores, (dictLookup merged a).isSome := by
            intro a ha
            refine hrefs a ?_
            simp only [explicitRefs]
            exact List.mem_append.mpr (Or.inl (List.mem_append.mpr (Or.inl ha)))
          obtain ⟨g2, hg2⟩ := aftersLoop_ok merged (Sum.inr (uuidStr r1)) ts.afters hafters g
          obtain ⟨g3, hg3⟩ := beforesLoop_ok merged (Sum.inr (uuidStr r1)) ts.befores hbefores g2
          obtain ⟨g4, hg4⟩ := ih hrest g3
          refine ⟨g4, ?_⟩
          have hr1' : dictLookup merged (RelTimeMarker.event iid ts).id = some r1 := hr1
          simp only [explicitLoop, RelTimeMarker.id] at hr1' ⊢
          rw [show dictLookup merged iid = some r1 from hr1']
          show (match aftersLoop merged (Sum.inr (uuidStr r1)) ts.afters g with
            | Except.error e => Except.error e
            | Except.ok g2 =>
              match beforesLoop merged (Sum.inr (uuidStr r1)) ts.befores g2 with
              | Except.error e => Except.error e
              | Except.ok g3 => explicitLoop merged rest g3) = Except.ok g4
          rw [hg2]
          show (match beforesLoop merged (Sum.inr (uuidStr r1)) ts.befores g2 with
            | Except.error e => Except.error e
            | Except.ok g3 => explicitLoop merged rest g3) = Except.ok g4
          rw [hg3]
          exact hg4
      | absoluteDateTime i v =>
          obtain ⟨g', hg⟩ := ih hrest g
          exact ⟨g', by simp only [explicitLoop]; exact hg⟩
      | date i v =>
          obtain ⟨g', hg⟩ := ih hrest g
          exact ⟨g', by simp only [explicitLoop]; exact hg⟩

/-! ### C2 -/

/-- C2 (amended): `hasNoConflict()` returns a boolean (never raises) for
every collection in which each Event's Explicit references — befores,
sames and afters — name identities of present markers; a reference to an
absent identity instead raises a `KeyError` that propagates (only
`NetworkXUnfeasible` is caught). -/
theorem hasNoConflict_total_of_refs_present (c : Collection)
    (h : ∀ mk ∈ markersOf c, ∀ r ∈ explicitRefs mk, r ∈ idsOf (markersOf c)) :
    ∃ b, has_no_conflict c = Except.ok b := by
  obtain ⟨merged, hmerged, hlook⟩ := idMergedOf_ok_of_refs_present c h
  have hexp : ∀ mk ∈ markersOf c, (dictLookup merged mk.id).isSome ∧
      ∀ r ∈ explicitRefs mk, (dictLookup merged r).isSome := by
    intro mk hmk
    constructor
    · have hmem : mk.id ∈ idsOf (markersOf c) :=
        List.mem_map_of_mem RelTimeMarker.id hmk
      rw [hlook, if_pos hmem]
      rfl
    · intro r hr
      rw [hlook, if_pos (h mk hmk r hr)]
      rfl
  obtain ⟨g', hg⟩ := explicitLoop_ok merged (markersOf c) hexp
    (implicitEdges (implicitsOf (markersOf c)) (implicitsOf (markersOf c)) [])
  refine ⟨(simpleCycles g').isEmpty, ?_⟩
  simp only [has_no_conflict, conflicts, buildGraph, hmerged, hg]

/-- C2 witness: on two events whose references are present,
`hasNoConflict()` evaluates to a boolean. -/
theorem hasNoConflict_total_witness :
    ∃ b, has_no_conflict
      (add_item emptyCollection
        [RelTimeMarker.event 21 ⟨[22], [], []⟩,
         RelTimeMarker.event 22 ⟨[], [], []⟩]).fst = Except.ok b :=
  hasNoConflict_total_of_refs_present
    (add_item emptyCollection
      [RelTimeMarker.event 21 ⟨[22], [], []⟩,
       RelTimeMarker.event 22 ⟨[], [], []⟩]).fst
    (by decide)

/-! ### C5 -/

theorem aftersLoop_ok_refs (merged : IdMap) (n1 : GNode) (l : List UUID) :
    ∀ g g', aftersLoop merged n1 l g = Except.ok g' →
      ∀ a ∈ l, (dictLookup merged a).isSome := by
  induction l with
  | nil => intro g g' _ a ha; simp at ha
  | cons a rest ih =>
      intro g g' h t ht
      cases hl : dictLookup merged a with
      | none =>
          simp only [aftersLoop, hl] at h
          exact Except.noConfusion h
      | some r2 =>
          simp only [aftersLoop, hl] at h
          rcases List.mem_cons.mp ht with rfl | ht'
          · simp [hl]
          · exact ih _ _ h t ht'

theorem beforesLoop_ok_refs (merged : IdMap) (n1 : GNode) (l : List UUID) :
    ∀ g g', beforesLoop merged n1 l g = Except.ok g' →
      ∀ a ∈ l, (dictLookup merged a).isSome := by
  induction l with
  | nil => intro g g' _ a ha; simp at ha
  | cons a rest ih =>
      intro g g' h t ht
      cases hl : dictLookup merged a with
      | none =>
          simp only [beforesLoop, hl] at h
          exact Except.noConfusion h
      | some r2 =>
          simp only [beforesLoop, hl] at h
          rcases List.mem_cons.mp ht with rfl | ht'
          · simp [hl]
          · exact ih _ _ h t ht'

theorem explicitLoop_ok_refs (merged : IdMap) (l : List RelTimeMarker) :
    ∀ g g', explicitLoop merged l g = Except.ok g' →
      ∀ iid ts, RelTimeMarker.event iid ts ∈ l →
        ∀ r ∈ ts.afters ++ ts.befores, (dictLookup merged r).isSome := by
  induction l with
  | nil => intro g g' _ iid ts hmem; simp at hmem
  | cons mk rest ih =>
      intro g g' h iid ts hmem r hr
      cases mk with
      | event iid0 ts0 =>
          rw [show explicitLoop merged (RelTimeMarker.event iid0 ts0 :: rest) g =
              (match dictLookup merged iid0 with
               | none => Except.error PyError.keyError
               | some r1 =>
                  match aftersLoop merged (Sum.inr (uuidStr r1)) ts0.afters g with
                  | Except.error e => Except.error e
                  | Except.ok g2 =>
                      match beforesLoop merged (Sum.inr (uuidStr r1)) ts0.befores g2 with
                      | Except.error e => Except.error e
                      | Except.ok g3 => explicitLoop merged rest g3) from rfl] at h
          cases hl : dictLookup merged iid0 with
          | none => rw [hl] at h; exact Except.noConfusion h
          | some r1 =>
              rw [hl] at h
              have h2 : (match aftersLoop merged (Sum.inr (uuidStr r1)) ts0.afters g with
                | Except.error e => Except.error e
                | Except.ok g2 =>
                    match beforesLoop merged (Sum.inr (uuidStr r1)) ts0.befores g2 with
                    | Except.error e => Except.error e
                    | Except.ok g3 => explicitLoop merged rest g3) = Except.ok g' := h
              cases ha : aftersLoop merged (Sum.inr (uuidStr r1)) ts0.afters g with
              | error e => rw [ha] at h2; exact Except.noConfusion h2
              | ok g2 =>
                  rw [ha] at h2
                  have h3 : (match beforesLoop merged (Sum.inr (uuidStr r1)) ts0.befores g2 with
                    | Except.error e => Except.error e
                    | Except.ok g3 => explicitLoop merged rest g3) = Except.ok g' := h2
                  cases hb : beforesLoop merged (Sum.inr (uuidStr r1)) ts0.befores g2 with
                  | error e => rw [hb] at h3; exact Except.noConfusion h3
                  | ok g3 =>
                      rw [hb] at h3
                      have h4 : explicitLoop merged rest g3 = Except.ok g' := h3
                      rcases List.mem_cons.mp hmem with heq | hmem'
                      · injection heq with h1' h2'
                        subst h1'
                        subst h2'
                        rcases List.mem_append.mp hr with hx | hx
                        · exact aftersLoop_ok_refs _ _ _ _ _ ha r hx
                        · exact beforesLoop_ok_refs _ _ _ _ _ hb r hx
                      · exact ih _ _ h4 iid ts hmem' r hr
      | absoluteDateTime i v =>
          simp only [explicitLoop] at h
          rcases List.mem_cons.mp hmem with heq | hmem'
          · cases heq
          · exact ih _ _ h iid ts hmem' r hr
      | date i v =>
          simp only [explicitLoop] at h
          rcases List.mem_cons.mp hmem with heq | hmem'
          · cases heq
          · exact ih _ _ h iid ts hmem' r hr

theorem idMergedLoop_keys (fuel : Nat) (m : IdMap) (l : List RelTimeMarker) :
    ∀ acc out, idMergedLoop fuel m l acc = Except.ok out →
      ∀ k, (dictLookup out k).isSome → k ∈ idsOf l ∨ (dictLookup acc k).isSome := by
  induction l with
  | nil =>
      intro acc out h k hk
      right
      simp only [idMergedLoop] at h
      injection h with h
      rwa [h]
  | cons mk rest ih =>
      intro acc out h k hk
      cases hc : currentRoot fuel m mk.id with
      | error e =>
          simp only [idMergedLoop, hc] at h
          exact Except.noConfusion h
      | ok r =>
          simp only [idMergedLoop, hc] at h
          rcases ih _ _ h k hk with h1 | h1
          · left
            simp only [idsOf, List.map_cons, List.mem_cons]
            right
            simpa [idsOf] using h1
          · rw [dictLookup_insert] at h1
            by_cases he : mk.id = k
            · left
              subst he
              simp [idsOf]
            · right
              rwa [if_neg he] at h1

theorem buildGraph_ok_refs (c : Collection) (g : Graph)
    (h : buildGraph c = Except.ok g) :
    ∀ iid ts, RelTimeMarker.event iid ts ∈ markersOf c →
      ∀ r ∈ ts.afters ++ ts.befores, r ∈ idsOf (markersOf c) := by
  intro iid ts hmem r hr
  unfold buildGraph at h
  cases hi : idMergedOf c with
  | error e => rw [hi] at h; simp at h
  | ok merged =>
      rw [hi] at h
      have hs := explicitLoop_ok_refs merged (markersOf c) _ _ h iid ts hmem r hr
      simp only [idMergedOf] at hi
      cases hm : mergeLoop ((markersOf c).length + 1) (markersOf c)
          (initMerging (markersOf c) []) with
      | error e =>
          rw [hm] at hi
          exact Except.noConfusion hi
      | ok m0 =>
          rw [hm] at hi
          have hi2 : idMergedLoop ((markersOf c).length + 1) m0 (markersOf c) []
              = Except.ok merged := hi
          rcases idMergedLoop_keys _ _ _ _ _ hi2 r hs with h1 | h1
          · exact h1
          · simp [dictLookup] at h1

/-- C5 (amended): a `befores`/`afters` reference to an identity absent
from the collection does not add a placeholder node — it makes the graph
construction fail (the representative lookup raises `KeyError`), so
`conflicts()` raises instead of returning a graph shape. -/
theorem buildGraph_fails_on_absent_ref (c : Collection) (iid : UUID)
    (ts : RelTimeSpecExplicit) (r : UUID)
    (hmem : RelTimeMarker.event iid ts ∈ markersOf c)
    (hr : r ∈ ts.befores ++ ts.afters)
    (habs : r ∉ idsOf (markersOf c)) :
    ∃ e, buildGraph c = Except.error e := by
  cases hb : buildGraph c with
  | error e => exact ⟨e, rfl⟩
  | ok g =>
      exfalso
      apply habs
      apply buildGraph_ok_refs c g hb iid ts hmem r
      rcases List.mem_append.mp hr with hx | hx
      · exact List.mem_append.mpr (Or.inr hx)
      · exact List.mem_append.mpr (Or.inl hx)

/-- C5 witness: the Event 33 with `befores={34}` and 34 absent makes the
build fail. -/
theorem buildGraph_fails_witness :
    ∃ e, buildGraph
      (add_item emptyCollection
        [RelTimeMarker.event 33 ⟨[34], [], []⟩]).fst = Except.error e :=
  buildGraph_fails_on_absent_ref
    (add_item emptyCollection [RelTimeMarker.event 33 ⟨[34], [], []⟩]).fst
    33 ⟨[34], [], []⟩ 34 (List.mem_singleton.mpr rfl)
    (List.mem_singleton.mpr rfl) (by decide)

/-! ### C9 -/

theorem edgeMemB_iff (e : GNode × GNode) (g : Graph) :
    edgeMemB e g = true ↔ e ∈ g := by
  induction g with
  | nil => simp [edgeMemB]
  | cons e' rest ih =>
      by_cases h : e' = e
      · subst h; simp [edgeMemB]
      · simp [edgeMemB, h, ih, Ne.symm h]

theorem addEdge_pres (P : GNode × GNode → Prop) (g : Graph)
    (e' : GNode × GNode) (hg : ∀ e ∈ g, P e) (he : P e') :
    ∀ e ∈ addEdge g e', P e := by
  intro e hm
  unfold addEdge at hm
  by_cases hb : edgeMemB e' g = true
  · rw [if_pos hb] at hm
    exact hg e hm
  · rw [if_neg hb] at hm
    rcases List.mem_append.mp hm with h | h
    · exact hg e h
    · rw [List.mem_singleton] at h
      subst h
      exact he

theorem implicitInner_hom (mk : RelTimeMarker) (l : List RelTimeMarker) :
    ∀ g, (∀ e ∈ g, (Prod.fst e).isLeft = (Prod.snd e).isLeft) →
      ∀ e ∈ implicitInner mk l g, (Prod.fst e).isLeft = (Prod.snd e).isLeft := by
  induction l with
  | nil => intro g hg; exact hg
  | cons m2 rest ih =>
      intro g hg
      simp only [implicitInner]
      by_cases hid : mk.id = m2.id
      · rw [if_pos hid]
        exact ih g hg
      · rw [if_neg hid]
        cases hcmp : markerCompare mk m2 with
        | before => exact ih _ (addEdge_pres _ g _ hg (by simp))
        | after => exact ih _ (addEdge_pres _ g _ hg (by simp))
        | same => exact ih g hg
        | unknown => exact ih g hg

theorem implicitEdges_hom (implicits : List RelTimeMarker) (l : List RelTimeMarker) :
    ∀ g, (∀ e ∈ g, (Prod.fst e).isLeft = (Prod.snd e).isLeft) →
      ∀ e ∈ implicitEdges implicits l g, (Prod.fst e).isLeft = (Prod.snd e).isLeft := by
  induction l with
  | nil => intro g hg; exact hg
  | cons mk rest ih =>
      intro g hg
      exact ih _ (implicitInner_hom mk implicits g hg)

theorem aftersLoop_hom (merged : IdMap) (n1s : String) (l : List UUID) :
    ∀ g g', aftersLoop merged (Sum.inr n1s) l g = Except.ok g' →
      (∀ e ∈ g, (Prod.fst e).isLeft = (Prod.snd e).isLeft) →
      ∀ e ∈ g', (Prod.fst e).isLeft = (Prod.snd e).isLeft := by
  induction l with
  | nil =>
      intro g g' h hg
      injection h with h
      rwa [h] at hg
  | cons a rest ih =>
      intro g g' h hg
      cases hl : dictLookup merged a with
      | none =>
          simp only [aftersLoop, hl] at h
          exact Except.noConfusion h
      | some r2 =>
          simp only [aftersLoop, hl] at h
          exact ih _ _ h (addEdge_pres _ g _ hg (by simp))

theorem beforesLoop_hom (merged : IdMap) (n1s : String) (l : List UUID) :
    ∀ g g', beforesLoop merged (Sum.inr n1s) l g = Except.ok g' →
      (∀ e ∈ g, (Prod.fst e).isLeft = (Prod.snd e).isLeft) →
      ∀ e ∈ g', (Prod.fst e).isLeft = (Prod.snd e).isLeft := by
  induction l with
  | nil =>
      intro g g' h hg
      injection h with h
      rwa [h] at hg
  | cons a rest ih =>
      intro g g' h hg
      cases hl : dictLookup merged a with
      | none =>
          simp only [beforesLoop, hl] at h
          exact Except.noConfusion h
      | some r2 =>
          simp only [beforesLoop, hl] at h
          exact ih _ _ h (addEdge_pres _ g _ hg (by simp))

theorem explicitLoop_hom (merged : IdMap) (l : List RelTimeMarker) :
    ∀ g g', explicitLoop merged l g = Except.ok g' →
      (∀ e ∈ g, (Prod.fst e).isLeft = (Prod.snd e).isLeft) →
      ∀ e ∈ g', (Prod.fst e).isLeft = (Prod.snd e).isLeft := by
  induction l with
  | nil =>
      intro g g' h hg
      injection h with h
      rwa [h] at hg
  | cons mk rest ih =>
      intro g g' h hg
      cases mk with
      | event iid ts =>
          cases hl : dictLookup merged iid with
          | none =>
              simp only [explicitLoop, hl] at h
              exact Except.noConfusion h
          | some r1 =>
              simp only [explicitLoop, hl] at h
              cases ha : aftersLoop merged (Sum.inr (uuidStr r1)) ts.afters g with
              | error e0 => rw [ha] at h; exact Except.noConfusion h
              | ok g2 =>
                  rw [ha] at h
                  have h3 : (match beforesLoop merged (Sum.inr (uuidStr r1)) ts.befores g2 with
                    | Except.error e => Except.error e
                    | Except.ok g3 => explicitLoop merged rest g3) = Except.ok g' := h
                  cases hb : beforesLoop merged (Sum.inr (uuidStr r1)) ts.befores g2 with
                  | error e0 => rw [hb] at h3; exact Except.noConfusion h3
                  | ok g3 =>
                      rw [hb] at h3
                      have h4 : explicitLoop merged rest g3 = Except.ok g' := h3
                      have hg2 := aftersLoop_hom merged (uuidStr r1) ts.afters g g2 ha hg
                      have hg3 := beforesLoop_hom merged (uuidStr r1) ts.befores g2 g3 hb hg2
                      exact ih _ _ h4 hg3
      | absoluteDateTime i v =>
          simp only [explicitLoop] at h
          exact ih _ _ h hg
      | date i v =>
          simp only [explicitLoop] at h
          exact ih _ _ h hg

theorem buildGraph_hom (c : Collection) (g : Graph)
    (h : buildGraph c = Except.ok g) :
    ∀ e ∈ g, (Prod.fst e).isLeft = (Prod.snd e).isLeft := by
  unfold buildGraph at h
  cases hi : idMergedOf c with
  | error e0 =>
      rw [hi] at h
      exact Except.noConfusion h
  | ok merged =>
      rw [hi] at h
      have h2 : explicitLoop merged (markersOf c)
          (implicitEdges (implicitsOf (markersOf c)) (implicitsOf (markersOf c)) [])
          = Except.ok g := h
      refine explicitLoop_hom merged (markersOf c) _ _ h2 ?_
      exact implicitEdges_hom _ _ [] (by intro e he; cases he)

theorem chainEdges_same_kind (g : Graph)
    (hg : ∀ e ∈ g, (Prod.fst e).isLeft = (Prod.snd e).isLeft) :
    ∀ (l : List GNode) (a : GNode), chainEdges g (a :: l) = true →
      ∀ n ∈ a :: l, n.isLeft = a.isLeft := by
  intro l
  induction l with
  | nil =>
      intro a _ n hn
      rw [List.mem_singleton] at hn
      subst hn
      rfl
  | cons b rest ih =>
      intro a h n hn
      have h' : (edgeMemB (a, b) g && chainEdges g (b :: rest)) = true := h
      rw [Bool.and_eq_true] at h'
      have hmem : (a, b) ∈ g := (edgeMemB_iff _ _).mp h'.1
      have hside : b.isLeft = a.isLeft := (hg _ hmem).symm
      rcases List.mem_cons.mp hn with rfl | hn'
      · rfl
      · rw [ih b h'.2 n hn', hside]

/-- C9: implicit (by-value) edges connect `UUID`-object nodes and
explicit edges connect stringified-representative nodes, and a `UUID`
never equals a `str`, so no cycle returned by `conflicts()` ever mixes the
two: every cycle lies wholly on implicit nodes or wholly on explicit
nodes, and a contradiction between a by-value ordering and an explicit
assertion is never reported as a conflict. -/
theorem cycles_never_mix_implicit_explicit (c : Collection)
    (cs : List (List GNode)) (cyc : List GNode)
    (hc : conflicts c = Except.ok cs) (hmem : cyc ∈ cs) :
    (∀ n ∈ cyc, ∃ u, n = Sum.inl u) ∨ (∀ n ∈ cyc, ∃ s, n = Sum.inr s) := by
  unfold conflicts at hc
  cases hb : buildGraph c with
  | error e => rw [hb] at hc; exact Except.noConfusion hc
  | ok g =>
      rw [hb] at hc
      have hcs : Except.ok (simpleCycles g) = (Except.ok cs : Except PyError _) := hc
      have hcs2 : simpleCycles g = cs := by injection hcs
      subst hcs2
      have hg := buildGraph_hom c g hb
      have hfil := List.mem_filter.mp hmem
      have hB : (isSimpleCycleB g cyc && isMinHeadB cyc) = true := hfil.2
      rw [Bool.and_eq_true] at hB
      cases cyc with
      | nil => simp [isSimpleCycleB] at hB
      | cons a rest =>
          have hsc : isSimpleCycleB g (a :: rest) = true := hB.1
          have hparts : (listNodupB (a :: rest) && chainEdges g (a :: rest) &&
              edgeMemB ((a :: rest).getLastD a, a) g) = true := hsc
          rw [Bool.and_eq_true, Bool.and_eq_true] at hparts
          have hall := chainEdges_same_kind g hg rest a hparts.1.2
          cases ha : a.isLeft
          · right
            intro n hn
            have h1 := hall n hn
            rw [ha] at h1
            cases n with
            | inl u => simp [Sum.isLeft] at h1
            | inr s => exact ⟨s, rfl⟩
          · left
            intro n hn
            have h1 := hall n hn
            rw [ha] at h1
            cases n with
            | inl u => exact ⟨u, rfl⟩
            | inr s => simp [Sum.isLeft] at h1

/-- C9 witness: the conflict cycle of two mutually-before events lies
wholly on explicit (string) nodes. -/
theorem cycles_never_mix_witness :
    (∀ n ∈ [Sum.inr (uuidStr 71), Sum.inr (uuidStr 72)],
        ∃ u, (n : GNode) = Sum.inl u) ∨
    (∀ n ∈ [Sum.inr (uuidStr 71), Sum.inr (uuidStr 72)],
        ∃ s, (n : GNode) = Sum.inr s) :=
  cycles_never_mix_implicit_explicit
    (add_item emptyCollection
      [RelTimeMarker.event 71 ⟨[72], [], []⟩,
       RelTimeMarker.event 72 ⟨[71], [], []⟩]).fst
    [[Sum.inr (uuidStr 71), Sum.inr (uuidStr 72)]]
    [Sum.inr (uuidStr 71), Sum.inr (uuidStr 72)]
    (by decide) (List.mem_singleton.mpr rfl)
